import Mathlib

/-!
Shallow embedding of `src/sports_ics.py` (a sports-schedule → ICS calendar
feed server) and proofs about it.

Conventions of the embedding:
* Instants in time are integers: absolute UTC seconds since the Unix epoch
  1970-01-01T00:00:00Z.  Calendar dates are integers: days since 1970-01-01
  (UTC).  `datetime.date` comparison in the source becomes integer
  comparison of epoch days.
* A Python `datetime` value (before conversion to UTC) is the structure
  `PyDatetime` below: calendar fields plus an optional fixed offset in
  minutes (`tzinfo`).
* Python dicts holding JSON records become structures with `Option` fields
  for optional keys; Python's insertion-ordered dict used for
  deduplication becomes an association list with in-place overwrite.
* Code paths that raise an exception that the source does not catch are
  modelled with `Except String`; caught-and-`continue` paths return
  `Option`/skip values.
-/

/-- Days in a month, with Gregorian leap years (model of the calendar
validation done by Python's `datetime`). -/
def daysInMonth (y m : Nat) : Nat :=
  if m = 1 ∨ m = 3 ∨ m = 5 ∨ m = 7 ∨ m = 8 ∨ m = 10 ∨ m = 12 then 31
  else if m = 4 ∨ m = 6 ∨ m = 9 ∨ m = 11 then 30
  else if y % 4 = 0 ∧ (y % 100 ≠ 0 ∨ y % 400 = 0) then 29
  else 28

/-- Days since 1970-01-01 of a Gregorian date with year ≥ 1
(standard civil-from-date computation). -/
def daysFromCivil (y m d : Nat) : Int :=
  let y2 := if m ≤ 2 then y - 1 else y
  let era := y2 / 400
  let yoe := y2 % 400
  let mp := if m ≤ 2 then m + 9 else m - 3
  let doy := (153 * mp + 2) / 5 + d - 1
  let doe := yoe * 365 + yoe / 4 - yoe / 100 + doy
  (era : Int) * 146097 + (doe : Int) - 719468

/-- Inverse of `daysFromCivil`: the Gregorian date (year, month, day) of an
epoch day (standard civil-from-days computation).  Used when formatting
UTC datetimes back into calendar fields. -/
def civilFromDays (day : Int) : Nat × Nat × Nat :=
  let z : Nat := (day + 719468).toNat
  let era := z / 146097
  let doe := z % 146097
  let yoe := (doe - doe / 1460 + doe / 36524 - doe / 146096) / 365
  let y := yoe + era * 400
  let doy := doe - (365 * yoe + yoe / 4 - yoe / 100)
  let mp := (5 * doy + 2) / 153
  let d := doy - (153 * mp + 2) / 5 + 1
  let m := if mp < 10 then mp + 3 else mp - 9
  (if m ≤ 2 then y + 1 else y, m, d)

/-- A Python `datetime` value: calendar fields plus `tzinfo` as an optional
fixed UTC offset in minutes (`none` = naive datetime). -/
structure PyDatetime where
  year : Nat
  month : Nat
  day : Nat
  hour : Nat
  minute : Nat
  second : Nat
  tz : Option Int
  deriving Repr, DecidableEq

/-- The instant denoted by the calendar fields read as if they were UTC,
in seconds since the Unix epoch. -/
def PyDatetime.naiveInstant (dt : PyDatetime) : Int :=
  daysFromCivil dt.year dt.month dt.day * 86400
    + (dt.hour * 3600 + dt.minute * 60 + dt.second : Nat)

/-- The absolute UTC instant denoted by a datetime: the naive reading minus
the attached UTC offset (a naive datetime contributes offset 0). -/
def PyDatetime.instant (dt : PyDatetime) : Int :=
  dt.naiveInstant - 60 * dt.tz.getD 0

/-- One decimal digit. -/
def digitVal (c : Char) : Option Nat :=
  if c.isDigit then some (c.toNat - 48) else none

/-- Exactly two decimal digits. -/
def parse2 : List Char → Option (Nat × List Char)
  | c1 :: c2 :: rest =>
    match digitVal c1, digitVal c2 with
    | some d1, some d2 => some (d1 * 10 + d2, rest)
    | _, _ => none
  | _ => none

/-- Exactly four decimal digits. -/
def parse4 : List Char → Option (Nat × List Char)
  | c1 :: c2 :: c3 :: c4 :: rest =>
    match digitVal c1, digitVal c2, digitVal c3, digitVal c4 with
    | some d1, some d2, some d3, some d4 =>
      some (((d1 * 10 + d2) * 10 + d3) * 10 + d4, rest)
    | _, _, _, _ => none
  | _ => none

/-- Optional `:SS` seconds part of a time. -/
def parseSeconds : List Char → Option (Nat × List Char)
  | ':' :: rest =>
    match parse2 rest with
    | some (s, rest2) => if s ≤ 59 then some (s, rest2) else none
    | none => none
  | rest => some (0, rest)

/-- Trailing UTC-offset part `±HH:MM` of a datetime string; `[]` means no
offset (naive). -/
def parseOffset : List Char → Option (Option Int)
  | [] => some none
  | '+' :: rest =>
    match parse2 rest with
    | some (oh, ':' :: rest2) =>
      match parse2 rest2 with
      | some (om, []) =>
        if oh ≤ 23 ∧ om ≤ 59 then some (some ((oh * 60 + om : Nat) : Int)) else none
      | _ => none
    | _ => none
  | '-' :: rest =>
    match parse2 rest with
    | some (oh, ':' :: rest2) =>
      match parse2 rest2 with
      | some (om, []) =>
        if oh ≤ 23 ∧ om ≤ 59 then some (some (-((oh * 60 + om : Nat) : Int))) else none
      | _ => none
    | _ => none
  | _ => none

/-- `HH:MM[:SS][±HH:MM]` time-and-offset part of a datetime string. -/
def parseTime (cs : List Char) : Option (Nat × Nat × Nat × Option Int) :=
  match parse2 cs with
  | some (h, ':' :: rest) =>
    match parse2 rest with
    | some (mi, rest2) =>
      match parseSeconds rest2 with
      | some (s, rest3) =>
        match parseOffset rest3 with
        | some off => if h ≤ 23 ∧ mi ≤ 59 then some (h, mi, s, off) else none
        | none => none
      | none => none
    | _ => none
  | _ => none

/-- Model of Python's `datetime.fromisoformat`, restricted to the formats
this program can meet: `YYYY-MM-DD`, optionally followed by `T` or a space
and `HH:MM[:SS]`, optionally followed by a UTC offset `±HH:MM`.  Field
ranges are validated as Python does (year ≥ 1, real calendar day, hour ≤ 23,
minute/second ≤ 59, offset below 24 h); `none` models `ValueError`. -/
def fromisoformat (cs : List Char) : Option PyDatetime :=
  match parse4 cs with
  | some (y, '-' :: rest1) =>
    match parse2 rest1 with
    | some (mo, '-' :: rest2) =>
      match parse2 rest2 with
      | some (d, rest3) =>
        if 1 ≤ y ∧ 1 ≤ mo ∧ mo ≤ 12 ∧ 1 ≤ d ∧ d ≤ daysInMonth y mo then
          match rest3 with
          | [] => some ⟨y, mo, d, 0, 0, 0, none⟩
          | sep :: rest4 =>
            if sep = 'T' ∨ sep = ' ' then
              match parseTime rest4 with
              | some (h, mi, s, off) => some ⟨y, mo, d, h, mi, s, off⟩
              | none => none
            else none
        else none
      | _ => none
    | _ => none
  | _ => none

/-- Python's `str.replace("Z", "+00:00")`: every occurrence of `Z` is
replaced. -/
def replaceZ : List Char → List Char
  | [] => []
  | c :: cs =>
    if c = 'Z' then '+' :: '0' :: '0' :: ':' :: '0' :: '0' :: replaceZ cs
    else c :: replaceZ cs

/-- Python's `str.endswith("Z")`. -/
def endsWithZ : List Char → Bool
  | [] => false
  | [c] => c = 'Z'
  | _ :: c :: cs => endsWithZ (c :: cs)

/-- The string actually handed to `fromisoformat` by `iso_to_utc`:
`dt_str.replace("Z", "+00:00")` when `dt_str.endswith("Z")`, else
`dt_str` itself. -/
def zPre (cs : List Char) : List Char :=
  if endsWithZ cs then replaceZ cs else cs

/-- `iso_to_utc` from `src/sports_ics.py`: rewrite a trailing `Z` to
`+00:00`, parse with `fromisoformat`, attach UTC to a naive result
(`dt.replace(tzinfo=timezone.utc)`), and convert to UTC
(`dt.astimezone(timezone.utc)`).  The returned UTC datetime is represented
by its absolute instant in seconds since the Unix epoch; `none` models the
`ValueError` raised on an invalid string. -/
def iso_to_utc (s : String) : Option Int :=
  match fromisoformat (zPre s.data) with
  | none => none
  | some dt =>
    let dt2 := if dt.tz = none then { dt with tz := some 0 } else dt
    some dt2.instant

/-- `t["team"]` / `home["team"]` sub-object: holds the display name when
present. -/
structure TeamObj where
  displayName : Option String
  deriving Repr, DecidableEq

/-- One entry of a competition's `competitors` list. -/
structure Competitor where
  homeAway : Option String
  team : Option TeamObj
  deriving Repr, DecidableEq

/-- A competition's `venue` sub-object. -/
structure Venue where
  fullName : Option String
  deriving Repr, DecidableEq

/-- The first (and only relevant) entry of a game's `competitions` list;
a missing `competitors` key reads as the empty list (`comp.get("competitors", [])`). -/
structure Competition where
  competitors : List Competitor
  venue : Option Venue
  deriving Repr, DecidableEq

/-- `status.type` sub-object of a game record. -/
structure StatusType where
  description : Option String
  deriving Repr, DecidableEq

/-- `status` sub-object of a game record. -/
structure Status where
  type : Option StatusType
  deriving Repr, DecidableEq

/-- One upstream game record (an element of a schedule's `events` list).
Optional JSON keys are `Option`; a missing `competitions` key reads as
`[]` (`ev.get("competitions", [])`). -/
structure GameRecord where
  id : Option String
  date : Option String
  competitions : List Competition
  status : Option Status
  deriving Repr, DecidableEq

/-- One produced calendar event (`icalendar.Event`).  `dtstart`/`dtend`
are absolute UTC instants in epoch seconds. -/
structure CalEvent where
  summary : String
  dtstart : Int
  dtend : Int
  uid : String
  location : Option String
  description : Option String
  deriving Repr, DecidableEq

/-- The produced calendar (`icalendar.Calendar`): the two header fields and
the ordered list of events. -/
structure ICalendar where
  prodid : String
  version : String
  events : List CalEvent
  deriving Repr, DecidableEq

/-- `start.date()` of a UTC datetime given as epoch seconds: its UTC
calendar date as an epoch day (floor division). -/
def dateOfInstant (i : Int) : Int := i / 86400

/-- The window test of `build_calendar`:
`start_window <= start.date() <= end_window` with
`start_window = today - 30 days` and `end_window = today + 365 days`,
dates as epoch days. -/
def inWindow (today d : Int) : Bool :=
  decide (today - 30 ≤ d) && decide (d ≤ today + 365)

/-- The event UID `f"{uid_prefix}-{ev['id']}@sports"`. -/
def mkUid (uidPre gameId : String) : String :=
  uidPre ++ "-" ++ gameId ++ "@sports"

/-- Python truthiness filter on an optional string: `if venue:` /
`if status:` keep only a present, non-empty string. -/
def truthyStr : Option String → Option String
  | none => none
  | some s => if s = "" then none else some s

/-- The body of `build_calendar`'s `for ev in events.values()` loop for one
game record: `Except.error` models an exception the loop does not catch
(empty `competitions` list, missing `id`/`team`/`displayName` keys),
`Except.ok none` a skipped record (`continue`), `Except.ok (some e)` an
emitted event.  `durSec` is the league's `timedelta(hours=default_hours)`
in seconds; `today` is `datetime.now(timezone.utc).date()` as an epoch
day. -/
def processEvent (today : Int) (uidPre : String) (durSec : Int)
    (ev : GameRecord) : Except String (Option CalEvent) :=
  match (match ev.date with
         | none => none
         | some s => iso_to_utc s) with
  | none => Except.ok none
  | some start =>
    if !(inWindow today (dateOfInstant start)) then Except.ok none
    else
      match ev.competitions with
      | [] => Except.error "IndexError: competitions list is empty"
      | comp :: _ =>
        let teams := comp.competitors
        match teams.find? (fun t => t.homeAway = some "home"),
              teams.find? (fun t => t.homeAway = some "away") with
        | some home, some away =>
          match home.team, away.team with
          | some ht, some at2 =>
            match ht.displayName, at2.displayName with
            | some homeName, some awayName =>
              match ev.id with
              | none => Except.error "KeyError: id"
              | some gid =>
                Except.ok (some
                  { summary := awayName ++ " @ " ++ homeName
                    dtstart := start
                    dtend := start + durSec
                    uid := mkUid uidPre gid
                    location := truthyStr (comp.venue.bind Venue.fullName)
                    description :=
                      truthyStr ((ev.status.bind Status.type).bind
                        StatusType.description) })
            | _, _ => Except.error "KeyError: displayName"
          | _, _ => Except.error "KeyError: team"
        | _, _ => Except.ok none

/-- The whole loop of `build_calendar` over `events.values()`: collects
emitted events in order; an uncaught exception from any record aborts the
remainder of the batch. -/
def buildEvents (today : Int) (uidPre : String) (durSec : Int) :
    List GameRecord → Except String (List CalEvent)
  | [] => Except.ok []
  | ev :: rest =>
    match processEvent today uidPre durSec ev with
    | Except.error e => Except.error e
    | Except.ok o =>
      match buildEvents today uidPre durSec rest with
      | Except.error e => Except.error e
      | Except.ok tail =>
        Except.ok (match o with
                   | some e => e :: tail
                   | none => tail)

/-- `build_calendar(events, prodid, uid_prefix, default_hours)` on the
dedup map's value list: header fields plus the translated events. -/
def build_calendar (today : Int) (prodid uidPre : String) (durSec : Int)
    (evs : List GameRecord) : Except String ICalendar :=
  match buildEvents today uidPre durSec evs with
  | Except.error e => Except.error e
  | Except.ok es => Except.ok ⟨prodid, "2.0", es⟩

/-- Python-dict assignment `events_by_id[ev_id] = ev` on an
insertion-ordered association list: an existing key keeps its position and
gets the new value; a new key is appended. -/
def dictInsert (k : String) (v : GameRecord) :
    List (String × GameRecord) → List (String × GameRecord)
  | [] => [(k, v)]
  | (k2, v2) :: rest =>
    if k2 = k then (k2, v) :: rest else (k2, v2) :: dictInsert k v rest

/-- The inner loop of `fetch_league_events` over one team's schedule:
records whose `id` is missing or falsy (empty string) are dropped, the
rest overwrite by id (last seen wins). -/
def addSchedule (m : List (String × GameRecord)) (sched : List GameRecord) :
    List (String × GameRecord) :=
  sched.foldl
    (fun m2 ev =>
      match ev.id with
      | none => m2
      | some i => if i = "" then m2 else dictInsert i ev m2) m

/-- The dedup map `events_by_id` built by `fetch_league_events` from the
per-team schedules (one list of game records per team, in fetch order). -/
def eventsById (schedules : List (List GameRecord)) :
    List (String × GameRecord) :=
  schedules.foldl addSchedule []

/-- The aggregation core of `fetch_league_events`: deduplicate the teams'
schedules by game id, then build the calendar from the map's values
(`events_by_id.values()` in insertion order). -/
def fetch_league_events (today : Int) (prodid uidPre : String)
    (durSec : Int) (schedules : List (List GameRecord)) :
    Except String ICalendar :=
  build_calendar today prodid uidPre durSec
    ((eventsById schedules).map Prod.snd)

/-- One league's cache entry: `{"last_fetch": ..., "ical_bytes": ...}`,
the timestamp in epoch seconds, the document as its serialized bytes. -/
structure CacheEntry where
  last_fetch : Option Int
  ical_bytes : Option String
  deriving Repr, DecidableEq

/-- Outcome of one `get_cached_calendar` call: what the caller gets
(`Except.error` models the re-raised fetch exception), the cache entry
afterwards, and whether `fetch_league_events` (the upstream network path)
was invoked. -/
structure GetOutcome where
  result : Except String String
  entry : CacheEntry
  fetched : Bool
  deriving Repr

/-- The refresh branch of `get_cached_calendar`: try
`fetch_league_events`; on success store bytes and timestamp and return
the fresh bytes; on failure leave the entry untouched and serve the old
bytes when they exist, else re-raise. `fetchResult` stands for the
outcome of the upstream fetch at this instant. -/
def refreshCache (now : Int) (fetchResult : Except String String)
    (entry : CacheEntry) : GetOutcome :=
  match fetchResult with
  | Except.ok b => ⟨Except.ok b, ⟨some now, some b⟩, true⟩
  | Except.error e =>
    match entry.ical_bytes with
    | some old => ⟨Except.ok old, entry, true⟩
    | none => ⟨Except.error e, entry, true⟩

/-- `get_cached_calendar(league)`: serve the cached bytes when the entry
is populated and fetched within `REFRESH_INTERVAL = 24h` (86400 s);
otherwise refresh. -/
def get_cached_calendar (now : Int) (fetchResult : Except String String)
    (entry : CacheEntry) : GetOutcome :=
  match entry.last_fetch, entry.ical_bytes with
  | some t, some b =>
    if now - t > 86400 then refreshCache now fetchResult entry
    else ⟨Except.ok b, entry, false⟩
  | _, _ => refreshCache now fetchResult entry

/-- Two-digit zero-padded decimal. -/
def pad2 (n : Nat) : String :=
  if n < 10 then "0" ++ toString n else toString n

/-- Four-digit zero-padded decimal. -/
def pad4 (n : Nat) : String :=
  if n < 10 then "000" ++ toString n
  else if n < 100 then "00" ++ toString n
  else if n < 1000 then "0" ++ toString n
  else toString n

/-- icalendar's serialization of a UTC datetime property value
(`YYYYMMDDTHHMMSSZ`), from an epoch-second instant. -/
def formatIcalUtc (i : Int) : String :=
  let day := dateOfInstant i
  let secs := (i - day * 86400).toNat
  match civilFromDays day with
  | (y, mo, d) =>
    pad4 y ++ pad2 mo ++ pad2 d ++ "T" ++ pad2 (secs / 3600)
      ++ pad2 (secs % 3600 / 60) ++ pad2 (secs % 60) ++ "Z"


/-- The home competitor of the spec's end-to-end example. -/
def chiefsHome : Competitor := ⟨some "home", some ⟨some "Kansas City Chiefs"⟩⟩

/-- The away competitor of the spec's end-to-end example. -/
def billsAway : Competitor := ⟨some "away", some ⟨some "Buffalo Bills"⟩⟩

/-- The competition entry of the spec's end-to-end example. -/
def sampleComp : Competition := ⟨[chiefsHome, billsAway], none⟩

/-- The game record of the spec's end-to-end example. -/
def sampleGame : GameRecord :=
  ⟨some "401547439", some "2025-11-12T18:20Z", [sampleComp], none⟩

/-- A game record whose `competitions` list is empty (or whose
`competitions` key is absent, which reads the same). -/
def emptyCompGame : GameRecord :=
  ⟨some "401547500", some "2025-11-12T18:20Z", [], none⟩

/-- A game record whose home competitor's team object lacks
`displayName`. -/
def noNameGame : GameRecord :=
  ⟨some "401547501", some "2025-11-12T18:20Z",
    [⟨[⟨some "home", some ⟨none⟩⟩, billsAway], none⟩], none⟩

/-- Number of events in a list bearing a given UID. -/
def countUid (es : List CalEvent) (u : String) : Nat :=
  (es.filter (fun e => e.uid = u)).length

/-- Invariant of the dedup map `events_by_id`: keys are distinct, and every
entry's record carries its key as its (non-empty) game id. -/
def KeysOk (m : List (String × GameRecord)) : Prop :=
  (m.map Prod.fst).Nodup ∧ ∀ p ∈ m, p.2.id = some p.1 ∧ p.1 ≠ ""

/-- A game record with an id but an unparseable date string, used to show
that a shared identifier need not yield an event. -/
def badDupGame : GameRecord := ⟨some "401547600", some "TBD", [], none⟩

/-- The calendar produced from the example game by the aggregation at
today = 2025-10-12 with product id `"P"`. -/
def sampleCal : ICalendar :=
  ⟨"P", "2.0", [⟨"Buffalo Bills @ Kansas City Chiefs", 1762971600,
    1762982400, "nfl-401547439@sports", none, none⟩]⟩

/-- A string ending in `Z` does end in `Z` for `endsWithZ`. -/
lemma endsWithZ_append (cs : List Char) : endsWithZ (cs ++ ['Z']) = true := by
  induction cs with
  | nil => rfl
  | cons c cs ih =>
    cases cs with
    | nil => rfl
    | cons d ds => exact ih

/-- When `Z` occurs only as the final character, `str.replace("Z", "+00:00")`
is exactly: drop the final `Z`, append `+00:00`. -/
lemma replaceZ_append (cs : List Char) (h : 'Z' ∉ cs) :
    replaceZ (cs ++ ['Z'])
      = cs ++ ('+' :: '0' :: '0' :: ':' :: '0' :: '0' :: []) := by
  induction cs with
  | nil => rfl
  | cons c cs ih =>
    have hc : ¬(c = 'Z') := fun hc => h (hc ▸ List.mem_cons_self c cs)
    have hcs : 'Z' ∉ cs := fun hm => h (List.mem_cons_of_mem c hm)
    simp only [List.cons_append, replaceZ, if_neg hc]
    exact congrArg (List.cons c) (ih hcs)

/-- `countUid` over a cons: the head contributes one when its UID
matches. -/
lemma countUid_cons (e : CalEvent) (es : List CalEvent) (u : String) :
    countUid (e :: es) u = (if e.uid = u then 1 else 0) + countUid es u := by
  by_cases h : e.uid = u <;> simp [countUid, List.filter_cons, h] <;> omega

/-- Two UIDs built from the same prefix agree only on equal game ids. -/
lemma mkUid_inj (u i j : String) (h : mkUid u i = mkUid u j) : i = j := by
  unfold mkUid at h
  have h2 := congrArg String.data h
  simp only [String.data_append] at h2
  exact String.ext (List.append_cancel_left (List.append_cancel_right h2))

/-- An emitted event's UID is always built from the record's game id. -/
lemma processEvent_uid (today : Int) (u : String) (d : Int) (r : GameRecord)
    (e : CalEvent) (h : processEvent today u d r = Except.ok (some e)) :
    ∃ i, r.id = some i ∧ e.uid = mkUid u i := by
  unfold processEvent at h
  repeat' split at h
  all_goals try simp_all
  all_goals repeat' split at h
  all_goals simp_all
  all_goals rw [← h]

/-- Unfolding one step of a successful `buildEvents` run. -/
lemma buildEvents_cons_ok (today : Int) (u : String) (d : Int) (r : GameRecord)
    (rest : List GameRecord) (es : List CalEvent)
    (h : buildEvents today u d (r :: rest) = Except.ok es) :
    ∃ o tail, processEvent today u d r = Except.ok o ∧
      buildEvents today u d rest = Except.ok tail ∧
      es = (match o with | some e => e :: tail | none => tail) := by
  unfold buildEvents at h
  split at h
  · exact absurd h (by simp)
  · rename_i o ho
    split at h
    · exact absurd h (by simp)
    · rename_i tail ht
      exact ⟨o, tail, ho, ht, (Except.ok.inj h).symm⟩

/-- A batch with no record bearing the given game id emits no event with
its UID. -/
lemma buildEvents_count_zero (today : Int) (u : String) (d : Int)
    (gid : String) :
    ∀ (recs : List GameRecord) (es : List CalEvent),
      buildEvents today u d recs = Except.ok es →
      (∀ r ∈ recs, r.id ≠ some gid) →
      countUid es (mkUid u gid) = 0 := by
  intro recs
  induction recs with
  | nil =>
    intro es h _
    rw [← Except.ok.inj h]
    rfl
  | cons r rest ih =>
    intro es h hno
    obtain ⟨o, tail, ho, ht, hes⟩ := buildEvents_cons_ok _ _ _ _ _ _ h
    have htail : countUid tail (mkUid u gid) = 0 :=
      ih tail ht (fun r2 hm => hno r2 (List.mem_cons_of_mem r hm))
    cases o with
    | none => rw [hes, htail]
    | some e0 =>
      obtain ⟨i0, hid0, huid0⟩ := processEvent_uid _ _ _ _ _ ho
      have hne : ¬(e0.uid = mkUid u gid) := by
        intro hcontra
        exact hno r (List.mem_cons_self r rest)
          (by rw [hid0, mkUid_inj u i0 gid (huid0 ▸ hcontra)])
      rw [hes, countUid_cons, if_neg hne, htail]

/-- Over a batch whose records have pairwise-distinct ids (as the dedup
map's value list does), at most one event bears a given id's UID, and
exactly one as soon as some record with that id translates to an event. -/
lemma buildEvents_count_main (today : Int) (u : String) (d : Int)
    (gid : String) :
    ∀ (recs : List GameRecord) (es : List CalEvent),
      (recs.map GameRecord.id).Nodup →
      buildEvents today u d recs = Except.ok es →
      countUid es (mkUid u gid) ≤ 1 ∧
      (∀ r e, r ∈ recs → r.id = some gid →
        processEvent today u d r = Except.ok (some e) →
        countUid es (mkUid u gid) = 1) := by
  intro recs
  induction recs with
  | nil =>
    intro es _ h
    refine ⟨?_, ?_⟩
    · rw [← Except.ok.inj h]
      exact Nat.zero_le 1
    · intro r e hmem
      exact absurd hmem (List.not_mem_nil r)
  | cons r rest ih =>
    intro es hnd h
    rw [List.map_cons, List.nodup_cons] at hnd
    obtain ⟨hnotin, hndrest⟩ := hnd
    obtain ⟨o, tail, ho, ht, hes⟩ := buildEvents_cons_ok _ _ _ _ _ _ h
    have ihres := ih tail hndrest ht
    cases o with
    | none =>
      refine ⟨hes ▸ ihres.1, ?_⟩
      intro r2 e2 hmem hid2 hpe2
      rcases List.mem_cons.mp hmem with heq | hmem2
      · rw [heq] at hpe2
        rw [ho] at hpe2
        exact absurd (Except.ok.inj hpe2) (by simp)
      · exact hes ▸ ihres.2 r2 e2 hmem2 hid2 hpe2
    | some e0 =>
      obtain ⟨i0, hid0, huid0⟩ := processEvent_uid _ _ _ _ _ ho
      by_cases hig : i0 = gid
      · have he0 : e0.uid = mkUid u gid := by rw [huid0, hig]
        have htail0 : countUid tail (mkUid u gid) = 0 := by
          refine buildEvents_count_zero today u d gid rest tail ht ?_
          intro r2 hm2 hcontra
          have hmm : some gid ∈ List.map GameRecord.id rest := by
            rw [← hcontra]
            exact List.mem_map_of_mem GameRecord.id hm2
          rw [hid0, hig] at hnotin
          exact hnotin hmm
        have hcount : countUid es (mkUid u gid) = 1 := by
          rw [hes, countUid_cons, if_pos he0, htail0]
        exact ⟨hcount ▸ Nat.le_refl 1, fun _ _ _ _ _ => hcount⟩
      · have hne : ¬(e0.uid = mkUid u gid) := by
          intro hcontra
          exact hig (mkUid_inj u i0 gid (huid0 ▸ hcontra))
        have hcount : countUid es (mkUid u gid)
            = countUid tail (mkUid u gid) := by
          rw [hes, countUid_cons, if_neg hne, Nat.zero_add]
        refine ⟨hcount ▸ ihres.1, ?_⟩
        intro r2 e2 hmem hid2 hpe2
        rcases List.mem_cons.mp hmem with heq | hmem2
        · exfalso
          rw [heq] at hid2
          rw [hid0] at hid2
          exact hig (Option.some.inj hid2)
        · exact hcount ▸ ihres.2 r2 e2 hmem2 hid2 hpe2

/-- Entries of `dictInsert` come from the old map or are the new pair. -/
lemma dictInsert_mem (k : String) (v : GameRecord) :
    ∀ (m : List (String × GameRecord)) (q : String × GameRecord),
      q ∈ dictInsert k v m → q ∈ m ∨ q = (k, v) := by
  intro m
  induction m with
  | nil =>
    intro q hq
    rcases List.mem_singleton.mp hq with h
    exact Or.inr h
  | cons p rest ih =>
    intro q hq
    obtain ⟨k2, v2⟩ := p
    by_cases hk : k2 = k
    · rw [dictInsert, if_pos hk] at hq
      rcases List.mem_cons.mp hq with h | h
      · exact Or.inr (by rw [h, hk])
      · exact Or.inl (List.mem_cons_of_mem _ h)
    · rw [dictInsert, if_neg hk] at hq
      rcases List.mem_cons.mp hq with h | h
      · exact Or.inl (h ▸ List.mem_cons_self _ _)
      · rcases ih q h with h2 | h2
        · exact Or.inl (List.mem_cons_of_mem _ h2)
        · exact Or.inr h2

/-- Keys of `dictInsert` come from the old keys or are the new key. -/
lemma dictInsert_keys_subset (k : String) (v : GameRecord) :
    ∀ (m : List (String × GameRecord)) (x : String),
      x ∈ (dictInsert k v m).map Prod.fst →
      x ∈ m.map Prod.fst ∨ x = k := by
  intro m x hx
  obtain ⟨q, hq, hqx⟩ := List.mem_map.mp hx
  rcases dictInsert_mem k v m q hq with h | h
  · exact Or.inl (hqx ▸ List.mem_map_of_mem Prod.fst h)
  · exact Or.inr (by rw [← hqx, h])

/-- `dictInsert` keeps the keys distinct. -/
lemma dictInsert_keys_nodup (k : String) (v : GameRecord) :
    ∀ (m : List (String × GameRecord)),
      (m.map Prod.fst).Nodup → ((dictInsert k v m).map Prod.fst).Nodup := by
  intro m
  induction m with
  | nil =>
    intro _
    exact List.nodup_singleton k
  | cons p rest ih =>
    intro hnd
    obtain ⟨k2, v2⟩ := p
    rw [List.map_cons, List.nodup_cons] at hnd
    obtain ⟨hnotin, hndrest⟩ := hnd
    by_cases hk : k2 = k
    · rw [dictInsert, if_pos hk, List.map_cons, List.nodup_cons]
      exact ⟨hnotin, hndrest⟩
    · rw [dictInsert, if_neg hk, List.map_cons, List.nodup_cons]
      refine ⟨?_, ih hndrest⟩
      intro hcontra
      rcases dictInsert_keys_subset k v rest k2 hcontra with h | h
      · exact hnotin h
      · exact hk h

/-- `dictInsert` with a matching record preserves the map invariant. -/
lemma dictInsert_keysOk (k : String) (v : GameRecord)
    (m : List (String × GameRecord)) (hm : KeysOk m)
    (hv : v.id = some k) (hk : k ≠ "") : KeysOk (dictInsert k v m) := by
  refine ⟨dictInsert_keys_nodup k v m hm.1, ?_⟩
  intro p hp
  rcases dictInsert_mem k v m p hp with h | h
  · exact hm.2 p h
  · rw [h]
    exact ⟨hv, hk⟩

/-- Folding one team's schedule into the map preserves the invariant. -/
lemma addSchedule_keysOk :
    ∀ (sched : List GameRecord) (m : List (String × GameRecord)),
      KeysOk m → KeysOk (addSchedule m sched) := by
  intro sched
  induction sched with
  | nil => exact fun m hm => hm
  | cons ev rest ih =>
    intro m hm
    show KeysOk (addSchedule
      (match ev.id with
       | none => m
       | some i => if i = "" then m else dictInsert i ev m) rest)
    cases hid : ev.id with
    | none => exact ih m hm
    | some i =>
      show KeysOk (addSchedule (if i = "" then m else dictInsert i ev m) rest)
      by_cases hi : i = ""
      · rw [if_pos hi]
        exact ih m hm
      · rw [if_neg hi]
        exact ih _ (dictInsert_keysOk i ev m hm hid hi)

/-- The dedup map built from any schedules satisfies the invariant. -/
lemma eventsById_keysOk (schedules : List (List GameRecord)) :
    KeysOk (eventsById schedules) := by
  have hgen : ∀ (ss : List (List GameRecord)) (m : List (String × GameRecord)),
      KeysOk m → KeysOk (ss.foldl addSchedule m) := by
    intro ss
    induction ss with
    | nil => exact fun m hm => hm
    | cons s rest ih => exact fun m hm => ih _ (addSchedule_keysOk s m hm)
  exact hgen schedules []
    ⟨List.nodup_nil, fun p hp => absurd hp (List.not_mem_nil p)⟩

/-- The ids of the dedup map's value list are pairwise distinct. -/
lemma values_ids_nodup (m : List (String × GameRecord)) (hm : KeysOk m) :
    ((m.map Prod.snd).map GameRecord.id).Nodup := by
  have h1 : (m.map Prod.snd).map GameRecord.id
      = m.map (fun p => some p.1) := by
    rw [List.map_map]
    exact List.map_congr_left (fun p hp => (hm.2 p hp).1)
  rw [h1, show (fun p : String × GameRecord => some p.1)
    = Option.some ∘ Prod.fst from rfl, ← List.map_map]
  exact hm.1.map (Option.some_injective _)

/-- C1, counterexample: game id 401547600 appears in both teams'
schedules, yet because its (single, deduplicated) record has an
unparseable date the aggregation succeeds with zero Calendar Events for
that identifier, not exactly one. -/
theorem dedup_exactly_one_counterexample :
    badDupGame.id = some "401547600" ∧
    fetch_league_events 20373 "P" "nfl" 10800 [[badDupGame], [badDupGame]]
      = Except.ok ⟨"P", "2.0", []⟩ ∧
    countUid ([] : List CalEvent) (mkUid "nfl" "401547600") = 0 :=
  ⟨rfl, rfl, rfl⟩

/-- C1 (amended): for every set of team schedules the aggregation
produces at most one Calendar Event per game identifier — exactly one
when the single retained record for that identifier translates to an
event — and records whose identifier is missing or empty are dropped:
every retained entry carries a present, non-empty identifier. -/
theorem dedup_at_most_one_event (today : Int) (prodid uidPre : String)
    (durSec : Int) (schedules : List (List GameRecord)) (gid : String)
    (cal : ICalendar)
    (hok : fetch_league_events today prodid uidPre durSec schedules
      = Except.ok cal) :
    countUid cal.events (mkUid uidPre gid) ≤ 1 ∧
    (∀ r e, (gid, r) ∈ eventsById schedules →
      processEvent today uidPre durSec r = Except.ok (some e) →
      countUid cal.events (mkUid uidPre gid) = 1) ∧
    (∀ p, p ∈ eventsById schedules → p.2.id = some p.1 ∧ p.1 ≠ "") := by
  have hko := eventsById_keysOk schedules
  have hnd := values_ids_nodup _ hko
  unfold fetch_league_events build_calendar at hok
  cases hb : buildEvents today uidPre durSec
      ((eventsById schedules).map Prod.snd) with
  | error e =>
    rw [hb] at hok
    exact absurd hok (by simp)
  | ok es =>
    rw [hb] at hok
    have hcal : cal = ⟨prodid, "2.0", es⟩ := (Except.ok.inj hok).symm
    have hmain := buildEvents_count_main today uidPre durSec gid _ es hnd hb
    refine ⟨?_, ?_, fun p hp => hko.2 p hp⟩
    · rw [hcal]
      exact hmain.1
    · intro r e hmem hpe
      have hrid : r.id = some gid := (hko.2 (gid, r) hmem).1
      have hrv : r ∈ (eventsById schedules).map Prod.snd :=
        List.mem_map_of_mem Prod.snd hmem
      rw [hcal]
      exact hmain.2 r e hrv hrid hpe

/-- Witness for the amended C1 at the example schedules. -/
theorem dedup_at_most_one_event_witness :
    countUid sampleCal.events (mkUid "nfl" "401547439") ≤ 1 ∧
    (∀ r e, ("401547439", r) ∈ eventsById [[sampleGame], [sampleGame]] →
      processEvent 20373 "nfl" 10800 r = Except.ok (some e) →
      countUid sampleCal.events (mkUid "nfl" "401547439") = 1) ∧
    (∀ p, p ∈ eventsById [[sampleGame], [sampleGame]] →
      p.2.id = some p.1 ∧ p.1 ≠ "") :=
  dedup_at_most_one_event 20373 "P" "nfl" 10800 [[sampleGame], [sampleGame]]
    "401547439" sampleCal rfl

/-- C2: an event is emitted only when the record's normalized start
instant, as a UTC calendar date, lies in [today − 30, today + 365]
(inclusive); outside the window the record yields no event, and inside the
window — with every other skip condition absent — it yields exactly one
event, with the translated fields. -/
theorem window_filter (today : Int) (uidPre : String) (durSec : Int)
    (ev : GameRecord) (s : String) (start : Int)
    (hdate : ev.date = some s) (hparse : iso_to_utc s = some start) :
    (inWindow today (dateOfInstant start) = false →
      processEvent today uidPre durSec ev = Except.ok none) ∧
    (∀ e, processEvent today uidPre durSec ev = Except.ok (some e) →
      inWindow today (dateOfInstant start) = true) ∧
    (inWindow today (dateOfInstant start) = true →
      ∀ comp rest home away ht at2 hn an gid,
        ev.competitions = comp :: rest →
        comp.competitors.find? (fun t => t.homeAway = some "home")
          = some home →
        comp.competitors.find? (fun t => t.homeAway = some "away")
          = some away →
        home.team = some ht → away.team = some at2 →
        ht.displayName = some hn → at2.displayName = some an →
        ev.id = some gid →
        processEvent today uidPre durSec ev
          = Except.ok (some
              ⟨an ++ " @ " ++ hn, start, start + durSec, mkUid uidPre gid,
               truthyStr (comp.venue.bind Venue.fullName),
               truthyStr ((ev.status.bind Status.type).bind
                 StatusType.description)⟩)) := by
  have hstart : (match ev.date with
                 | none => none
                 | some s2 => iso_to_utc s2) = some start := by
    rw [hdate]
    exact hparse
  refine ⟨?_, ?_, ?_⟩
  · intro hwin
    simp only [processEvent, hstart, hwin, Bool.not_false, if_true]
  · intro e he
    cases hwin : inWindow today (dateOfInstant start) with
    | true => rfl
    | false =>
      exfalso
      simp only [processEvent, hstart, hwin, Bool.not_false, if_true] at he
      exact Option.noConfusion (Except.ok.inj he)
  · intro hwin comp rest home away ht at2 hn an gid hcomp hhome haway
      hht hat hhn han hid
    simp only [processEvent, hstart, hwin, Bool.not_true, Bool.false_eq_true,
      if_false, hcomp, hhome, haway, hht, hat, hhn, han, hid]

/-- Witness for C2 at the example record and a concrete in-window today. -/
theorem window_filter_witness :
    (inWindow 20373 (dateOfInstant 1762971600) = false →
      processEvent 20373 "nfl" 10800 sampleGame = Except.ok none) ∧
    (∀ e, processEvent 20373 "nfl" 10800 sampleGame = Except.ok (some e) →
      inWindow 20373 (dateOfInstant 1762971600) = true) ∧
    (inWindow 20373 (dateOfInstant 1762971600) = true →
      ∀ comp rest home away ht at2 hn an gid,
        sampleGame.competitions = comp :: rest →
        comp.competitors.find? (fun t => t.homeAway = some "home")
          = some home →
        comp.competitors.find? (fun t => t.homeAway = some "away")
          = some away →
        home.team = some ht → away.team = some at2 →
        ht.displayName = some hn → at2.displayName = some an →
        sampleGame.id = some gid →
        processEvent 20373 "nfl" 10800 sampleGame
          = Except.ok (some
              ⟨an ++ " @ " ++ hn, 1762971600, 1762971600 + 10800,
               mkUid "nfl" gid,
               truthyStr (comp.venue.bind Venue.fullName),
               truthyStr ((sampleGame.status.bind Status.type).bind
                 StatusType.description)⟩)) :=
  window_filter 20373 "nfl" 10800 sampleGame "2025-11-12T18:20Z" 1762971600
    (by decide) (by decide)

/-- C6: a game record whose first competition lacks a home-tagged or an
away-tagged competitor is skipped — no event, no exception — and the rest
of the batch is processed as if the record were absent. -/
theorem missing_competitor_skipped (today : Int) (uidPre : String)
    (durSec : Int) (ev : GameRecord) (s : String) (start : Int)
    (comp : Competition) (rest : List Competition)
    (hdate : ev.date = some s) (hparse : iso_to_utc s = some start)
    (hcomp : ev.competitions = comp :: rest)
    (hmiss : comp.competitors.find? (fun t => t.homeAway = some "home") = none
      ∨ comp.competitors.find? (fun t => t.homeAway = some "away") = none) :
    processEvent today uidPre durSec ev = Except.ok none ∧
    ∀ others, buildEvents today uidPre durSec (ev :: others)
      = buildEvents today uidPre durSec others := by
  have hstart : (match ev.date with
                 | none => none
                 | some s2 => iso_to_utc s2) = some start := by
    rw [hdate]
    exact hparse
  have hpe : processEvent today uidPre durSec ev = Except.ok none := by
    cases hwin : inWindow today (dateOfInstant start) with
    | false => simp only [processEvent, hstart, hwin, Bool.not_false, if_true]
    | true =>
      rcases hmiss with hm | hm
      · simp only [processEvent, hstart, hwin, Bool.not_true,
          Bool.false_eq_true, if_false, hcomp, hm]
      · cases hh : comp.competitors.find?
            (fun t => t.homeAway = some "home") with
        | none =>
          simp only [processEvent, hstart, hwin, Bool.not_true,
            Bool.false_eq_true, if_false, hcomp, hh]
        | some home =>
          simp only [processEvent, hstart, hwin, Bool.not_true,
            Bool.false_eq_true, if_false, hcomp, hh, hm]
  refine ⟨hpe, ?_⟩
  intro others
  cases hb : buildEvents today uidPre durSec others with
  | error e => simp only [buildEvents, hpe, hb]
  | ok tail => simp only [buildEvents, hpe, hb]

/-- Witness for C6: the example game with the away competitor removed is
skipped and the remaining batch still processed. -/
theorem missing_competitor_skipped_witness :
    processEvent 20373 "nfl" 10800
      ⟨some "401547440", some "2025-11-12T18:20Z", [⟨[chiefsHome], none⟩],
        none⟩ = Except.ok none ∧
    ∀ others, buildEvents 20373 "nfl" 10800
        (⟨some "401547440", some "2025-11-12T18:20Z", [⟨[chiefsHome], none⟩],
          none⟩ :: others)
      = buildEvents 20373 "nfl" 10800 others :=
  missing_competitor_skipped 20373 "nfl" 10800
    ⟨some "401547440", some "2025-11-12T18:20Z", [⟨[chiefsHome], none⟩], none⟩
    "2025-11-12T18:20Z" 1762971600 ⟨[chiefsHome], none⟩ []
    (by decide) (by decide) (by decide) (Or.inr (by decide))

/-- C7: a record whose start-date string `iso_to_utc` cannot parse is
skipped — no event, no exception — and aggregation of the remaining
records proceeds as if the record were absent. -/
theorem bad_date_skipped (today : Int) (uidPre : String) (durSec : Int)
    (ev : GameRecord) (s : String)
    (hdate : ev.date = some s) (hbad : iso_to_utc s = none) :
    processEvent today uidPre durSec ev = Except.ok none ∧
    ∀ others, buildEvents today uidPre durSec (ev :: others)
      = buildEvents today uidPre durSec others := by
  have hpe : processEvent today uidPre durSec ev = Except.ok none := by
    have hstart : (match ev.date with
                   | none => none
                   | some s2 => iso_to_utc s2) = (none : Option Int) := by
      rw [hdate]
      exact hbad
    simp only [processEvent, hstart]
  refine ⟨hpe, ?_⟩
  intro others
  cases hb : buildEvents today uidPre durSec others with
  | error e => simp only [buildEvents, hpe, hb]
  | ok tail => simp only [buildEvents, hpe, hb]

/-- Witness for C7: a record with the unparseable date string `"TBD"` is
skipped and the remaining batch still processed. -/
theorem bad_date_skipped_witness :
    processEvent 20373 "nfl" 10800
      ⟨some "401547441", some "TBD", [sampleComp], none⟩ = Except.ok none ∧
    ∀ others, buildEvents 20373 "nfl" 10800
        (⟨some "401547441", some "TBD", [sampleComp], none⟩ :: others)
      = buildEvents 20373 "nfl" 10800 others :=
  bad_date_skipped 20373 "nfl" 10800
    ⟨some "401547441", some "TBD", [sampleComp], none⟩ "TBD"
    (by decide) (by decide)

/-- C3: for a league whose cache holds a prior successful fetch, two
`get_cached_calendar` calls both within 24 hours of that fetch perform no
upstream call, leave the entry unchanged, and both return exactly the
cached bytes (hence byte-identical to each other). -/
theorem get_fresh_twice_no_fetch (t now1 now2 : Int) (b : String)
    (fr1 fr2 : Except String String)
    (h1 : now1 - t ≤ 86400) (h2 : now2 - t ≤ 86400) :
    (get_cached_calendar now1 fr1 ⟨some t, some b⟩).fetched = false ∧
    (get_cached_calendar now1 fr1 ⟨some t, some b⟩).result = Except.ok b ∧
    (get_cached_calendar now1 fr1 ⟨some t, some b⟩).entry = ⟨some t, some b⟩ ∧
    (get_cached_calendar now2 fr2
      (get_cached_calendar now1 fr1 ⟨some t, some b⟩).entry).fetched = false ∧
    (get_cached_calendar now2 fr2
      (get_cached_calendar now1 fr1 ⟨some t, some b⟩).entry).result
      = Except.ok b := by
  have e1 : get_cached_calendar now1 fr1 ⟨some t, some b⟩
      = ⟨Except.ok b, ⟨some t, some b⟩, false⟩ := by
    show (if now1 - t > 86400 then refreshCache now1 fr1 ⟨some t, some b⟩
          else ⟨Except.ok b, ⟨some t, some b⟩, false⟩) = _
    rw [if_neg (by omega)]
  have e2 : get_cached_calendar now2 fr2 ⟨some t, some b⟩
      = ⟨Except.ok b, ⟨some t, some b⟩, false⟩ := by
    show (if now2 - t > 86400 then refreshCache now2 fr2 ⟨some t, some b⟩
          else ⟨Except.ok b, ⟨some t, some b⟩, false⟩) = _
    rw [if_neg (by omega)]
  rw [e1]
  exact ⟨rfl, rfl, rfl, by rw [e2], by rw [e2]⟩

/-- Witness for C3 at a concrete fresh cache entry. -/
theorem get_fresh_twice_no_fetch_witness :
    (get_cached_calendar 3600 (Except.error "down") ⟨some 0, some "CAL"⟩).fetched
      = false ∧
    (get_cached_calendar 3600 (Except.error "down") ⟨some 0, some "CAL"⟩).result
      = Except.ok "CAL" ∧
    (get_cached_calendar 3600 (Except.error "down") ⟨some 0, some "CAL"⟩).entry
      = ⟨some 0, some "CAL"⟩ ∧
    (get_cached_calendar 7200 (Except.error "down")
      (get_cached_calendar 3600 (Except.error "down")
        ⟨some 0, some "CAL"⟩).entry).fetched = false ∧
    (get_cached_calendar 7200 (Except.error "down")
      (get_cached_calendar 3600 (Except.error "down")
        ⟨some 0, some "CAL"⟩).entry).result = Except.ok "CAL" :=
  get_fresh_twice_no_fetch 0 3600 7200 "CAL" (Except.error "down")
    (Except.error "down") (by decide) (by decide)

/-- C4: for a stale cache entry (last fetch more than 24 hours ago), a
failing refresh returns the previously cached bytes, leaves both the bytes
and the timestamp untouched, and a next call past the window attempts the
upstream fetch again. -/
theorem get_stale_failed_refresh_fallback (t now now2 : Int) (b : String)
    (e1 e2 : String) (h : now - t > 86400) (h2 : now2 - t > 86400) :
    (get_cached_calendar now (Except.error e1) ⟨some t, some b⟩).result
      = Except.ok b ∧
    (get_cached_calendar now (Except.error e1) ⟨some t, some b⟩).entry
      = ⟨some t, some b⟩ ∧
    (get_cached_calendar now (Except.error e1) ⟨some t, some b⟩).fetched
      = true ∧
    (get_cached_calendar now2 (Except.error e2)
      (get_cached_calendar now (Except.error e1)
        ⟨some t, some b⟩).entry).fetched = true := by
  have e0 : get_cached_calendar now (Except.error e1) ⟨some t, some b⟩
      = ⟨Except.ok b, ⟨some t, some b⟩, true⟩ := by
    show (if now - t > 86400 then refreshCache now (Except.error e1) ⟨some t, some b⟩
          else ⟨Except.ok b, ⟨some t, some b⟩, false⟩) = _
    rw [if_pos h]
    rfl
  have e3 : get_cached_calendar now2 (Except.error e2) ⟨some t, some b⟩
      = ⟨Except.ok b, ⟨some t, some b⟩, true⟩ := by
    show (if now2 - t > 86400 then refreshCache now2 (Except.error e2) ⟨some t, some b⟩
          else ⟨Except.ok b, ⟨some t, some b⟩, false⟩) = _
    rw [if_pos h2]
    rfl
  rw [e0]
  exact ⟨rfl, rfl, rfl, by rw [e3]⟩

/-- Witness for C4 at a concrete stale cache entry. -/
theorem get_stale_failed_refresh_fallback_witness :
    (get_cached_calendar 100000 (Except.error "boom")
      ⟨some 0, some "OLD"⟩).result = Except.ok "OLD" ∧
    (get_cached_calendar 100000 (Except.error "boom")
      ⟨some 0, some "OLD"⟩).entry = ⟨some 0, some "OLD"⟩ ∧
    (get_cached_calendar 100000 (Except.error "boom")
      ⟨some 0, some "OLD"⟩).fetched = true ∧
    (get_cached_calendar 200000 (Except.error "again")
      (get_cached_calendar 100000 (Except.error "boom")
        ⟨some 0, some "OLD"⟩).entry).fetched = true :=
  get_stale_failed_refresh_fallback 0 100000 200000 "OLD" "boom" "again"
    (by decide) (by decide)

/-- C5: with an empty cache entry a failing refresh propagates the error
to the caller, and that empty-plus-failing state is the only one in which
`get_cached_calendar` returns an error: every error outcome has no cached
bytes and a failing fetch with the same error. -/
theorem get_empty_failed_refresh_error (now : Int) (e : String) :
    (get_cached_calendar now (Except.error e) ⟨none, none⟩).result
      = Except.error e ∧
    (∀ (now2 : Int) (fr : Except String String) (entry : CacheEntry)
      (err : String),
      (get_cached_calendar now2 fr entry).result = Except.error err →
      entry.ical_bytes = none ∧ fr = Except.error err) := by
  refine ⟨rfl, ?_⟩
  intro now2 fr entry err hres
  obtain ⟨lf, ib⟩ := entry
  rcases ib with _ | b
  · refine ⟨rfl, ?_⟩
    rcases fr with e2 | b2
    · rcases lf with _ | t
      · have : (get_cached_calendar now2 (Except.error e2)
            ⟨none, none⟩).result = Except.error e2 := rfl
        rw [this] at hres
        rw [← hres]
      · have : (get_cached_calendar now2 (Except.error e2)
            ⟨some t, none⟩).result = Except.error e2 := rfl
        rw [this] at hres
        rw [← hres]
    · rcases lf with _ | t
      · have : (get_cached_calendar now2 (Except.ok b2)
            ⟨none, none⟩).result = Except.ok b2 := rfl
        rw [this] at hres
        exact absurd hres (by simp)
      · have : (get_cached_calendar now2 (Except.ok b2)
            ⟨some t, none⟩).result = Except.ok b2 := rfl
        rw [this] at hres
        exact absurd hres (by simp)
  · exfalso
    rcases lf with _ | t
    · rcases fr with e2 | b2
      · have : (get_cached_calendar now2 (Except.error e2)
            ⟨none, some b⟩).result = Except.ok b := rfl
        rw [this] at hres
        exact absurd hres (by simp)
      · have : (get_cached_calendar now2 (Except.ok b2)
            ⟨none, some b⟩).result = Except.ok b2 := rfl
        rw [this] at hres
        exact absurd hres (by simp)
    · have hsplit : get_cached_calendar now2 fr ⟨some t, some b⟩
        = if now2 - t > 86400 then refreshCache now2 fr ⟨some t, some b⟩
          else ⟨Except.ok b, ⟨some t, some b⟩, false⟩ := rfl
      rw [hsplit] at hres
      by_cases hc : now2 - t > 86400
      · rw [if_pos hc] at hres
        rcases fr with e2 | b2
        · have : (refreshCache now2 (Except.error e2)
              ⟨some t, some b⟩).result = Except.ok b := rfl
          rw [this] at hres
          exact absurd hres (by simp)
        · have : (refreshCache now2 (Except.ok b2)
              ⟨some t, some b⟩).result = Except.ok b2 := rfl
          rw [this] at hres
          exact absurd hres (by simp)
      · rw [if_neg hc] at hres
        exact absurd hres (by simp)

/-- Witness for C5 at a concrete empty cache entry. -/
theorem get_empty_failed_refresh_error_witness :
    (get_cached_calendar 50 (Except.error "down") ⟨none, none⟩).result
      = Except.error "down" ∧
    (∀ (now2 : Int) (fr : Except String String) (entry : CacheEntry)
      (err : String),
      (get_cached_calendar now2 fr entry).result = Except.error err →
      entry.ical_bytes = none ∧ fr = Except.error err) :=
  get_empty_failed_refresh_error 50 "down"

/-- C8: the contract of `iso_to_utc`.  Every accepted string denotes an
absolute UTC instant: a parsed value with no timezone is assumed UTC (the
instant is the naive reading), a value with an explicit offset is
converted to UTC (the offset is subtracted), a trailing `Z` is rewritten
to the UTC offset `+00:00` before parsing, and exactly the strings
`fromisoformat` rejects make the normalizer fail. -/
theorem iso_to_utc_contract (s : String) :
    (∀ dt, fromisoformat (zPre s.data) = some dt → dt.tz = none →
      iso_to_utc s = some dt.naiveInstant) ∧
    (∀ dt off, fromisoformat (zPre s.data) = some dt → dt.tz = some off →
      iso_to_utc s = some (dt.naiveInstant - 60 * off)) ∧
    (iso_to_utc s = none ↔ fromisoformat (zPre s.data) = none) ∧
    (∀ cs, s.data = cs ++ ['Z'] → 'Z' ∉ cs →
      zPre s.data = cs ++ ('+' :: '0' :: '0' :: ':' :: '0' :: '0' :: [])) := by
  refine ⟨?_, ?_, ?_, ?_⟩
  · intro dt hf htz
    simp only [iso_to_utc, hf, htz, if_pos, PyDatetime.instant,
      PyDatetime.naiveInstant, Option.getD_some, Option.some.injEq]
    ring
  · intro dt off hf htz
    have hne : ¬(dt.tz = none) := by
      rw [htz]
      exact Option.noConfusion
    have h1 : iso_to_utc s = some dt.instant := by
      simp only [iso_to_utc, hf, if_neg hne]
    rw [h1]
    simp [PyDatetime.instant, htz]
  · cases hf : fromisoformat (zPre s.data) with
    | none => simp [iso_to_utc, hf]
    | some dt => simp [iso_to_utc, hf]
  · intro cs hdata hz
    rw [hdata]
    unfold zPre
    rw [if_pos (endsWithZ_append cs), replaceZ_append cs hz]

/-- Witness for C8 at the example date string `"2025-11-12T18:20Z"`. -/
theorem iso_to_utc_contract_witness :
    (∀ dt, fromisoformat (zPre "2025-11-12T18:20Z".data) = some dt →
      dt.tz = none → iso_to_utc "2025-11-12T18:20Z" = some dt.naiveInstant) ∧
    (∀ dt off, fromisoformat (zPre "2025-11-12T18:20Z".data) = some dt →
      dt.tz = some off →
      iso_to_utc "2025-11-12T18:20Z" = some (dt.naiveInstant - 60 * off)) ∧
    (iso_to_utc "2025-11-12T18:20Z" = none ↔
      fromisoformat (zPre "2025-11-12T18:20Z".data) = none) ∧
    (∀ cs, "2025-11-12T18:20Z".data = cs ++ ['Z'] → 'Z' ∉ cs →
      zPre "2025-11-12T18:20Z".data
        = cs ++ ('+' :: '0' :: '0' :: ':' :: '0' :: '0' :: [])) :=
  iso_to_utc_contract "2025-11-12T18:20Z"

/-- C9: the spec's end-to-end example.  Two teams' schedules both listing
game id 401547439 on 2025-11-12T18:20Z between the Chiefs (home) and the
Bills (away), with a 3-hour default duration, aggregate to a calendar with
exactly one event, with the stated summary, UID, DTSTART and DTEND,
whenever today's UTC date puts the start date inside the window. -/
theorem end_to_end_example (today : Int)
    (h : today - 30 ≤ daysFromCivil 2025 11 12 ∧
      daysFromCivil 2025 11 12 ≤ today + 365) :
    ∃ e : CalEvent,
      fetch_league_events today "-//Homepage Sports Calendar//NFL//EN" "nfl"
          10800 [[sampleGame], [sampleGame]]
        = Except.ok ⟨"-//Homepage Sports Calendar//NFL//EN", "2.0", [e]⟩ ∧
      e.summary = "Buffalo Bills @ Kansas City Chiefs" ∧
      e.uid = "nfl-401547439@sports" ∧
      formatIcalUtc e.dtstart = "20251112T182000Z" ∧
      formatIcalUtc e.dtend = "20251112T212000Z" := by
  have hd : dateOfInstant 1762971600 = daysFromCivil 2025 11 12 := by decide
  have hwin : inWindow today (dateOfInstant 1762971600) = true := by
    rw [hd]
    simp only [inWindow, Bool.and_eq_true, decide_eq_true_eq]
    exact h
  have hstart : (match sampleGame.date with
                 | none => none
                 | some s2 => iso_to_utc s2) = some 1762971600 := by decide
  have hpe : processEvent today "nfl" 10800 sampleGame
      = Except.ok (some ⟨"Buffalo Bills @ Kansas City Chiefs", 1762971600,
          1762982400, "nfl-401547439@sports", none, none⟩) := by
    simp only [processEvent, hstart, hwin, Bool.not_true, Bool.false_eq_true,
      if_false]
    rfl
  have hvals : (eventsById [[sampleGame], [sampleGame]]).map Prod.snd
      = [sampleGame] := by decide
  refine ⟨⟨"Buffalo Bills @ Kansas City Chiefs", 1762971600, 1762982400,
    "nfl-401547439@sports", none, none⟩, ?_, rfl, rfl, by decide, by decide⟩
  simp only [fetch_league_events, build_calendar, hvals, buildEvents, hpe]

/-- Witness for C9 with today = 2025-10-12. -/
theorem end_to_end_example_witness :
    ∃ e : CalEvent,
      fetch_league_events 20373 "-//Homepage Sports Calendar//NFL//EN" "nfl"
          10800 [[sampleGame], [sampleGame]]
        = Except.ok ⟨"-//Homepage Sports Calendar//NFL//EN", "2.0", [e]⟩ ∧
      e.summary = "Buffalo Bills @ Kansas City Chiefs" ∧
      e.uid = "nfl-401547439@sports" ∧
      formatIcalUtc e.dtstart = "20251112T182000Z" ∧
      formatIcalUtc e.dtend = "20251112T212000Z" :=
  end_to_end_example 20373 (by decide)

/-- C10: a record with a parseable in-window date but an empty
`competitions` list — or a home competitor without the nested display
name — makes `build_calendar`'s loop raise, aborting the whole batch
(the later good record is lost), while an unparseable date in an equally
malformed record is recovered: the date parse is the only per-record
failure the loop catches. -/
theorem malformed_record_aborts_batch :
    (∃ msg, buildEvents 20373 "nfl" 10800 [emptyCompGame, sampleGame]
      = Except.error msg) ∧
    (∃ msg, buildEvents 20373 "nfl" 10800 [noNameGame, sampleGame]
      = Except.error msg) ∧
    buildEvents 20373 "nfl" 10800 [sampleGame]
      = Except.ok [⟨"Buffalo Bills @ Kansas City Chiefs", 1762971600,
          1762982400, "nfl-401547439@sports", none, none⟩] ∧
    buildEvents 20373 "nfl" 10800
        [⟨some "401547500", some "TBD", [], none⟩, sampleGame]
      = Except.ok [⟨"Buffalo Bills @ Kansas City Chiefs", 1762971600,
          1762982400, "nfl-401547439@sports", none, none⟩] := by
  exact ⟨⟨"IndexError: competitions list is empty", rfl⟩,
    ⟨"KeyError: displayName", rfl⟩, rfl, rfl⟩
